import Mathlib

/-!
Shallow embedding of the music-theory-to-event compiler in
`src/midi_composer.py` (class `MIDIComposer` and the module-level loader
`create_from_json`), together with proofs of the specified properties.

Machine pitches and velocities are modelled as `ℤ` (Python ints), beat
times as `ℚ` (the Python floats involved are all exactly representable
small dyadic rationals, and the operations used are additions and
multiplications, which the float semantics performs exactly on these
values).  Fallible Python code (exceptions) is modelled with `Except`.
-/

/-- Python exceptions that the embedded code can raise. -/
inductive PyError where
  | invalidNoteName
  | unknownScale
  | indexError
  | zeroDivision
  deriving DecidableEq, Repr

/-- `ScaleType` enum of `midi_composer.py`. -/
inductive ScaleType where
  | MAJOR
  | MINOR
  | HARMONIC_MINOR
  | MELODIC_MINOR
  | PENTATONIC_MAJOR
  | PENTATONIC_MINOR
  | BLUES
  | DORIAN
  | PHRYGIAN
  | LYDIAN
  | MIXOLYDIAN
  | LOCRIAN
  | WHOLE_TONE
  | CHROMATIC
  deriving DecidableEq, Repr, Fintype

/-- Semitone offsets of each scale (the enum member values). -/
def ScaleType.value : ScaleType → List ℤ
  | .MAJOR => [0, 2, 4, 5, 7, 9, 11]
  | .MINOR => [0, 2, 3, 5, 7, 8, 10]
  | .HARMONIC_MINOR => [0, 2, 3, 5, 7, 8, 11]
  | .MELODIC_MINOR => [0, 2, 3, 5, 7, 9, 11]
  | .PENTATONIC_MAJOR => [0, 2, 4, 7, 9]
  | .PENTATONIC_MINOR => [0, 3, 5, 7, 10]
  | .BLUES => [0, 3, 5, 6, 7, 10]
  | .DORIAN => [0, 2, 3, 5, 7, 9, 10]
  | .PHRYGIAN => [0, 1, 3, 5, 7, 8, 10]
  | .LYDIAN => [0, 2, 4, 6, 7, 9, 11]
  | .MIXOLYDIAN => [0, 2, 4, 5, 7, 9, 10]
  | .LOCRIAN => [0, 1, 3, 5, 6, 8, 10]
  | .WHOLE_TONE => [0, 2, 4, 6, 8, 10]
  | .CHROMATIC => [0, 1, 2, 3, 4, 5, 6, 7, 8, 9, 10, 11]

/-- `ChordQuality` enum of `midi_composer.py`. -/
inductive ChordQuality where
  | MAJOR
  | MINOR
  | DIMINISHED
  | AUGMENTED
  | MAJOR7
  | MINOR7
  | DOMINANT7
  | DIMINISHED7
  | HALF_DIMINISHED7
  | MINOR_MAJOR7
  | AUGMENTED7
  | SUS2
  | SUS4
  | ADD9
  | MAJOR6
  | MINOR6
  deriving DecidableEq, Repr, Fintype

/-- Semitone intervals of each chord quality (the enum member values). -/
def ChordQuality.value : ChordQuality → List ℤ
  | .MAJOR => [0, 4, 7]
  | .MINOR => [0, 3, 7]
  | .DIMINISHED => [0, 3, 6]
  | .AUGMENTED => [0, 4, 8]
  | .MAJOR7 => [0, 4, 7, 11]
  | .MINOR7 => [0, 3, 7, 10]
  | .DOMINANT7 => [0, 4, 7, 10]
  | .DIMINISHED7 => [0, 3, 6, 9]
  | .HALF_DIMINISHED7 => [0, 3, 6, 10]
  | .MINOR_MAJOR7 => [0, 3, 7, 11]
  | .AUGMENTED7 => [0, 4, 8, 10]
  | .SUS2 => [0, 2, 7]
  | .SUS4 => [0, 5, 7]
  | .ADD9 => [0, 4, 7, 14]
  | .MAJOR6 => [0, 4, 7, 9]
  | .MINOR6 => [0, 3, 7, 9]

/-- The `Note` dataclass: a single timed note event. -/
structure Note where
  pitch : ℤ
  startTime : ℚ
  duration : ℚ
  velocity : ℤ
  deriving DecidableEq, Repr

/-- `Note` construction including `__post_init__`, which saturates pitch and
velocity into [0,127]. -/
def mkNote (pitch : ℤ) (startTime : ℚ) (duration : ℚ) (velocity : ℤ) : Note :=
  { pitch := max 0 (min 127 pitch)
    startTime := startTime
    duration := duration
    velocity := max 0 (min 127 velocity) }

/-- The `Track` dataclass. -/
structure Track where
  name : String
  channel : ℤ
  notes : List Note
  program : ℤ
  deriving DecidableEq, Repr

/-- One octave worth of `get_scale_notes`'s inner loop: the in-range notes
`root + 12*octave + interval` for each scale interval, in definition order. -/
def scaleChunk (root : ℤ) (scaleType : ScaleType) (octave : ℕ) : List ℤ :=
  (scaleType.value.map (fun interval => root + (octave : ℤ) * 12 + interval)).filter
    (fun note => decide (0 ≤ note ∧ note ≤ 127))

/-- `MIDIComposer.get_scale_notes`: the outer loop over `range(octaves)`,
appending each octave's chunk in order. -/
def getScaleNotes (root : ℤ) (scaleType : ScaleType) : ℕ → List ℤ
  | 0 => []
  | n + 1 => getScaleNotes root scaleType n ++ scaleChunk root scaleType n

/-- Python's `list.sort()` on integer lists (ascending comparison sort). -/
def sortList (l : List ℤ) : List ℤ :=
  l.insertionSort (fun a b => a ≤ b)

/-- One step of the inversion loop in `create_chord`:
`intervals[0] += 12; intervals.sort()`.  (The chord-quality interval lists
are all non-empty, so the `[]` case is unreachable on real inputs.) -/
def invertStep : List ℤ → List ℤ
  | [] => []
  | x :: xs => sortList ((x + 12) :: xs)

/-- The inversion loop of `create_chord`, iterated `inversion` times. -/
def invertIter (intervals : List ℤ) : ℕ → List ℤ
  | 0 => intervals
  | n + 1 => invertStep (invertIter intervals n)

/-- `MIDIComposer.create_chord`. -/
def createChord (root : ℤ) (quality : ChordQuality) (inversion : ℕ)
    (octaveDoubling : Bool) : List ℤ :=
  let intervals := invertIter quality.value inversion
  let chord := intervals.map (fun interval => root + interval)
  let chord2 :=
    if octaveDoubling && decide (0 < chord.length) then
      chord ++ [chord.headD 0 + 12]
    else chord
  chord2.filter (fun note => decide (0 ≤ note ∧ note ≤ 127))

/-- The chord-quality selection inside `create_chord_progression`
(lines 149–158): the diatonic harmonization rule. -/
def harmonizeDegree (degree : ℤ) (scaleType : ScaleType) : ChordQuality :=
  if scaleType = ScaleType.MAJOR then
    if degree = 1 ∨ degree = 4 ∨ degree = 5 then ChordQuality.MAJOR
    else if degree = 2 ∨ degree = 3 ∨ degree = 6 then ChordQuality.MINOR
    else if degree = 7 then ChordQuality.DIMINISHED
    else ChordQuality.MAJOR
  else
    if degree = 3 ∨ degree = 6 ∨ degree = 7 then ChordQuality.MAJOR
    else if degree = 1 ∨ degree = 4 ∨ degree = 5 then ChordQuality.MINOR
    else if degree = 2 then ChordQuality.DIMINISHED
    else ChordQuality.MINOR

/-- Python list indexing `l[i]` (negative indices count from the end;
an out-of-range index raises `IndexError`, modelled as `none`). -/
def pyGet (l : List ℤ) (i : ℤ) : Option ℤ :=
  if 0 ≤ i then l.get? i.toNat
  else if 0 ≤ i + (l.length : ℤ) then l.get? (i + (l.length : ℤ)).toNat
  else none

/-- The chord-root selection inside `create_chord_progression` (line 148):
`scale_notes[degree - 1] if degree <= len(scale_notes) else root`. -/
def chordRootFor (root : ℤ) (scaleType : ScaleType) (degree : ℤ) : Option ℤ :=
  let scaleNotes := getScaleNotes root scaleType 3
  if degree ≤ (scaleNotes.length : ℤ) then pyGet scaleNotes (degree - 1)
  else some root

/-- The pitch set built for one progression degree inside
`create_chord_progression` (lines 147–159): resolve the chord root, pick the
quality with the harmonization rule, and build the (uninverted, undoubled)
chord.  A Python `IndexError` from the root lookup becomes `Except.error`. -/
def chordPitchesFor (root : ℤ) (scaleType : ScaleType) (degree : ℤ) :
    Except PyError (List ℤ) :=
  match chordRootFor root scaleType degree with
  | none => Except.error PyError.indexError
  | some chordRoot =>
      Except.ok (createChord chordRoot (harmonizeDegree degree scaleType) 0 false)

/-- The main loop of `create_chord_progression`: for each degree, emit one
note per chord pitch at the current cursor time (velocity 70), then advance
the cursor by `durationPerChord`. -/
def chordProgLoop (root : ℤ) (scaleType : ScaleType) (durationPerChord : ℚ) :
    List ℤ → ℚ → Except PyError (List Note)
  | [], _ => Except.ok []
  | degree :: rest, currentTime =>
      match chordPitchesFor root scaleType degree with
      | Except.error e => Except.error e
      | Except.ok chord =>
          match chordProgLoop root scaleType durationPerChord rest
              (currentTime + durationPerChord) with
          | Except.error e => Except.error e
          | Except.ok tail =>
              Except.ok
                (chord.map (fun pitch => mkNote pitch currentTime durationPerChord 70)
                  ++ tail)

/-- `MIDIComposer.create_chord_progression` (program 4 is
`INSTRUMENTS['electric_piano']`). -/
def createChordProgression (root : ℤ) (scaleType : ScaleType)
    (progression : List ℤ) (durationPerChord : ℚ) : Except PyError Track :=
  match chordProgLoop root scaleType durationPerChord progression 0 with
  | Except.error e => Except.error e
  | Except.ok notes =>
      Except.ok { name := "Chord Progression", channel := 0, notes := notes, program := 4 }

/-- The main loop of `create_melody`: for each `(degree, duration, rest)`
triple, emit one note when `degree > 0` (pitch looked up with wraparound:
`(degree-1) % len` indexes the expanded scale and `(degree-1) // len`
octaves of 12 semitones are added), and always advance the cursor by
`duration + rest`.  An empty expanded scale makes the Python `%` raise
`ZeroDivisionError`.  Returns the emitted notes and the final cursor. -/
def melodyLoop (scaleNotes : List ℤ) :
    List (ℤ × ℚ × ℚ) → ℚ → Except PyError (List Note × ℚ)
  | [], currentTime => Except.ok ([], currentTime)
  | (degree, duration, rest) :: pattern, currentTime =>
      if degree > 0 then
        if scaleNotes.length = 0 then Except.error PyError.zeroDivision
        else
          let noteIndex := (Int.emod (degree - 1) (scaleNotes.length : ℤ)).toNat
          let octaveOffset := Int.ediv (degree - 1) (scaleNotes.length : ℤ) * 12
          let pitch := scaleNotes.getD noteIndex 0 + octaveOffset
          match melodyLoop scaleNotes pattern (currentTime + (duration + rest)) with
          | Except.error e => Except.error e
          | Except.ok (tail, finalTime) =>
              Except.ok (mkNote pitch currentTime duration 85 :: tail, finalTime)
      else melodyLoop scaleNotes pattern (currentTime + (duration + rest))

/-- `MIDIComposer.create_melody` (program 81 is
`INSTRUMENTS['synth_lead_sawtooth']`).  The `startOctave` parameter is
declared (default 5 in the source) but never read by the body. -/
def createMelody (root : ℤ) (scaleType : ScaleType)
    (pattern : List (ℤ × ℚ × ℚ)) (startOctave : ℤ) : Except PyError Track :=
  match melodyLoop (getScaleNotes root scaleType 3) pattern 0 with
  | Except.error e => Except.error e
  | Except.ok (notes, _) =>
      Except.ok { name := "Melody", channel := 1, notes := notes, program := 81 }

/-- The main loop of `create_bass_line`: emit a note only when
`0 < degree ≤ len(bass_notes)`; always advance the cursor. -/
def bassLoop (bassNotes : List ℤ) : List (ℤ × ℚ) → ℚ → List Note
  | [], _ => []
  | (degree, duration) :: pattern, currentTime =>
      (if 0 < degree ∧ degree ≤ (bassNotes.length : ℤ) then
        [mkNote (bassNotes.getD (degree - 1).toNat 0) currentTime duration 90]
      else []) ++ bassLoop bassNotes pattern (currentTime + duration)

/-- `MIDIComposer.create_bass_line` (program 33 is
`INSTRUMENTS['electric_bass_finger']`).  The `octave` parameter is declared
(default 2) but never read by the body. -/
def createBassLine (root : ℤ) (scaleType : ScaleType)
    (pattern : List (ℤ × ℚ)) (octave : ℤ) : Track :=
  let scaleNotes := getScaleNotes root scaleType 2
  let bassNotes :=
    (scaleNotes.filter (fun note => decide (0 ≤ note - 24))).map (fun note => note - 24)
  { name := "Bass", channel := 2, notes := bassLoop bassNotes pattern 0, program := 33 }

/-- The `DRUM_MAP` table of `create_drum_pattern`. -/
def DRUM_MAP : List (String × ℤ) :=
  [("kick", 36), ("snare", 38), ("closed_hihat", 42), ("open_hihat", 46),
   ("crash", 49), ("ride", 51), ("tom_high", 48), ("tom_mid", 47), ("tom_low", 45)]

/-- `MIDIComposer.create_drum_pattern`: for each measure and each recognized
drum name, one short (0.1 beat) velocity-95 note per hit offset, at
`measure * beats_per_measure + offset`, on channel 9. -/
def createDrumPattern (beatsPerMeasure : ℤ) (pattern : List (String × List ℚ))
    (measures : ℕ) : Track :=
  let notes :=
    (List.range measures).flatMap (fun measure =>
      pattern.flatMap (fun entry =>
        match List.lookup entry.1 DRUM_MAP with
        | some pitch =>
            entry.2.map (fun hitTime =>
              mkNote pitch ((measure : ℚ) * (beatsPerMeasure : ℚ) + hitTime) (1 / 10) 95)
        | none => []))
  { name := "Drums", channel := 9, notes := notes, program := 0 }

/-- The `NOTE_NAMES` table, as character lists. -/
def NOTE_NAMES : List (List Char) :=
  [['C'], ['C', '#'], ['D'], ['D', '#'], ['E'], ['F'], ['F', '#'], ['G'],
   ['G', '#'], ['A'], ['A', '#'], ['B']]

/-- Python `str.strip()` on a character list (whitespace both ends). -/
def pyStrip (l : List Char) : List Char :=
  ((l.dropWhile Char.isWhitespace).reverse.dropWhile Char.isWhitespace).reverse

/-- The name normalization in `note_name_to_midi`:
`note_name.replace('m', '').strip().upper()`. -/
def processNoteName (name : String) : List Char :=
  (pyStrip (name.toList.filter (fun c => c != 'm'))).map Char.toUpper

/-- The `flat_map` aliasing in `note_name_to_midi`: the five flat spellings
are replaced by their sharp equivalents. -/
def applyFlatMap (name : List Char) : List Char :=
  if name = ['D', 'B'] then ['C', '#']
  else if name = ['E', 'B'] then ['D', '#']
  else if name = ['G', 'B'] then ['F', '#']
  else if name = ['A', 'B'] then ['G', '#']
  else if name = ['B', 'B'] then ['A', '#']
  else name

/-- `MIDIComposer.note_name_to_midi`: normalize the name, resolve flat
aliases, look it up in `NOTE_NAMES` (raising `ValueError` on a miss,
modelled as `invalidNoteName`), and clamp `(octave+1)*12 + index`. -/
def noteNameToMidi (name : String) (octave : ℤ) : Except PyError ℤ :=
  let resolved := applyFlatMap (processNoteName name)
  match NOTE_NAMES.findIdx? (fun entry => entry == resolved) with
  | none => Except.error PyError.invalidNoteName
  | some noteIndex => Except.ok (max 0 (min 127 ((octave + 1) * 12 + (noteIndex : ℤ))))

/-- The `ScaleType[name]` enum lookup table used by `create_from_json`. -/
def SCALE_TABLE : List (String × ScaleType) :=
  [("MAJOR", ScaleType.MAJOR), ("MINOR", ScaleType.MINOR),
   ("HARMONIC_MINOR", ScaleType.HARMONIC_MINOR),
   ("MELODIC_MINOR", ScaleType.MELODIC_MINOR),
   ("PENTATONIC_MAJOR", ScaleType.PENTATONIC_MAJOR),
   ("PENTATONIC_MINOR", ScaleType.PENTATONIC_MINOR),
   ("BLUES", ScaleType.BLUES), ("DORIAN", ScaleType.DORIAN),
   ("PHRYGIAN", ScaleType.PHRYGIAN), ("LYDIAN", ScaleType.LYDIAN),
   ("MIXOLYDIAN", ScaleType.MIXOLYDIAN), ("LOCRIAN", ScaleType.LOCRIAN),
   ("WHOLE_TONE", ScaleType.WHOLE_TONE), ("CHROMATIC", ScaleType.CHROMATIC)]

/-- `ScaleType[scale_name]`: `KeyError` (the `UnknownScale` failure) when the
name is not an enum member. -/
def scaleOfName (name : String) : Option ScaleType :=
  List.lookup name SCALE_TABLE

/-- The `INSTRUMENTS` general-MIDI program table of `MIDIComposer`. -/
def INSTRUMENTS : List (String × ℤ) :=
  [("acoustic_grand_piano", 0), ("bright_acoustic_piano", 1),
   ("electric_grand_piano", 2), ("electric_piano", 4), ("rhodes", 4),
   ("wurlitzer", 5), ("vibraphone", 11), ("marimba", 12), ("xylophone", 13),
   ("drawbar_organ", 16), ("hammond", 16), ("rock_organ", 18),
   ("acoustic_guitar_nylon", 24), ("acoustic_guitar_steel", 25),
   ("electric_guitar_jazz", 26), ("electric_guitar_clean", 27),
   ("electric_guitar_muted", 28), ("acoustic_bass", 32),
   ("electric_bass_finger", 33), ("electric_bass_pick", 34),
   ("fretless_bass", 35), ("slap_bass", 36), ("synth_bass_1", 38),
   ("synth_bass_2", 39), ("violin", 40), ("viola", 41), ("cello", 42),
   ("contrabass", 43), ("string_ensemble", 48), ("choir_aahs", 52),
   ("voice_oohs", 53), ("trumpet", 56), ("trombone", 57), ("tuba", 58),
   ("french_horn", 60), ("brass_section", 61), ("soprano_sax", 64),
   ("alto_sax", 65), ("tenor_sax", 66), ("baritone_sax", 67),
   ("clarinet", 71), ("synth_lead_square", 80), ("synth_lead_sawtooth", 81),
   ("synth_lead_calliope", 82), ("synth_pad_new_age", 88),
   ("synth_pad_warm", 89), ("synth_pad_polysynth", 90),
   ("synth_pad_choir", 91), ("synth_pad_bowed", 92),
   ("synth_pad_metallic", 93)]

instance {ε α : Type} [DecidableEq ε] [DecidableEq α] : DecidableEq (Except ε α) :=
  fun a b =>
    match a, b with
    | Except.error e, Except.error f =>
        if h : e = f then isTrue (by rw [h]) else isFalse (by simp [h])
    | Except.ok x, Except.ok y =>
        if h : x = y then isTrue (by rw [h]) else isFalse (by simp [h])
    | Except.error _, Except.ok _ => isFalse (by simp)
    | Except.ok _, Except.error _ => isFalse (by simp)

/-- One parsed track descriptor of the declarative specification
(`other` stands for any unrecognized `type` tag, which the loader skips). -/
inductive TrackSpec where
  | chordProgression (progression : List ℤ) (durationPerChord : ℚ)
      (instrument : Option String)
  | melody (pattern : List (ℤ × ℚ × ℚ)) (octave : ℤ) (instrument : Option String)
  | bass (pattern : List (ℤ × ℚ)) (octave : ℤ) (instrument : Option String)
  | drums (pattern : List (String × List ℚ)) (measures : ℕ)
  | other
  deriving DecidableEq, Repr

/-- A parsed declarative composition specification (defaults already
applied, as `data.get(...)` does). -/
structure CompSpec where
  tempo : ℤ
  timeSignature : ℤ × ℤ
  key : String
  octave : ℤ
  scale : String
  tracks : List TrackSpec
  deriving DecidableEq, Repr

/-- The assembled `MIDIComposer` state: tempo, time signature, tracks. -/
structure MIDIComposer where
  tempo : ℤ
  timeSignature : ℤ × ℤ
  tracks : List Track
  deriving DecidableEq, Repr

/-- The per-descriptor instrument override in `create_from_json`:
`INSTRUMENTS.get(name, default)` when an `instrument` field is present. -/
def applyInstrument (track : Track) (instrument : Option String) (dflt : ℤ) : Track :=
  match instrument with
  | none => track
  | some name => { track with program := (List.lookup name INSTRUMENTS).getD dflt }

/-- Build the (possibly absent) track for one descriptor of
`create_from_json`'s loop. -/
def buildTrack (root : ℤ) (scaleType : ScaleType) (beatsPerMeasure : ℤ) :
    TrackSpec → Except PyError (Option Track)
  | TrackSpec.chordProgression progression durationPerChord instrument =>
      match createChordProgression root scaleType progression durationPerChord with
      | Except.error e => Except.error e
      | Except.ok track => Except.ok (some (applyInstrument track instrument 4))
  | TrackSpec.melody pattern octave instrument =>
      match createMelody root scaleType pattern octave with
      | Except.error e => Except.error e
      | Except.ok track => Except.ok (some (applyInstrument track instrument 81))
  | TrackSpec.bass pattern octave instrument =>
      Except.ok (some (applyInstrument (createBassLine root scaleType pattern octave)
        instrument 33))
  | TrackSpec.drums pattern measures =>
      Except.ok (some (createDrumPattern beatsPerMeasure pattern measures))
  | TrackSpec.other => Except.ok none

/-- The track-descriptor loop of `create_from_json`, appending built tracks
in descriptor order. -/
def buildTracks (root : ℤ) (scaleType : ScaleType) (beatsPerMeasure : ℤ) :
    List TrackSpec → Except PyError (List Track)
  | [] => Except.ok []
  | spec :: rest =>
      match buildTrack root scaleType beatsPerMeasure spec with
      | Except.error e => Except.error e
      | Except.ok builtTrack =>
          match buildTracks root scaleType beatsPerMeasure rest with
          | Except.error e => Except.error e
          | Except.ok tail => Except.ok (builtTrack.toList ++ tail)

/-- `create_from_json`: resolve the key name to a root pitch, then the scale
name (a miss is the `UnknownScale` failure), then build every track; any
failure aborts the whole composition. -/
def createFromJson (spec : CompSpec) : Except PyError MIDIComposer :=
  match noteNameToMidi spec.key spec.octave with
  | Except.error e => Except.error e
  | Except.ok root =>
      match scaleOfName spec.scale with
      | none => Except.error PyError.unknownScale
      | some scaleType =>
          match buildTracks root scaleType spec.timeSignature.1 spec.tracks with
          | Except.error e => Except.error e
          | Except.ok tracks =>
              Except.ok { tempo := spec.tempo, timeSignature := spec.timeSignature,
                          tracks := tracks }

/-! ## Helper lemmas -/

/-- Every scale contains offset 0 (the root). -/
theorem scaleValue_zero_mem : ∀ s : ScaleType, (0 : ℤ) ∈ s.value := by decide

/-- Every scale offset lies in [0, 11]. -/
theorem scaleValue_bounds : ∀ s : ScaleType, ∀ i ∈ s.value, 0 ≤ i ∧ i ≤ 11 := by decide

/-- Every scale's offset list is strictly increasing. -/
theorem scaleValue_sorted : ∀ s : ScaleType, List.Sorted (· < ·) s.value := by decide

theorem mem_scaleChunk {root x : ℤ} {s : ScaleType} {o : ℕ}
    (hx : x ∈ scaleChunk root s o) :
    root + (o : ℤ) * 12 ≤ x ∧ x ≤ root + (o : ℤ) * 12 + 11 ∧ 0 ≤ x ∧ x ≤ 127 := by
  unfold scaleChunk at hx
  rw [List.mem_filter] at hx
  obtain ⟨hmem, hcond⟩ := hx
  rw [List.mem_map] at hmem
  obtain ⟨i, hi, rfl⟩ := hmem
  have hb := scaleValue_bounds s i hi
  rw [decide_eq_true_eq] at hcond
  omega

theorem scaleChunk_sorted (root : ℤ) (s : ScaleType) (o : ℕ) :
    List.Sorted (· < ·) (scaleChunk root s o) := by
  unfold scaleChunk
  apply List.Pairwise.filter
  exact List.Pairwise.map _ (fun a b hab => by omega) (scaleValue_sorted s)

theorem scaleChunk_length_le (root : ℤ) (s : ScaleType) (o : ℕ) :
    (scaleChunk root s o).length ≤ s.value.length := by
  unfold scaleChunk
  calc ((s.value.map (fun i => root + (o : ℤ) * 12 + i)).filter _).length
      ≤ (s.value.map (fun i => root + (o : ℤ) * 12 + i)).length :=
        List.length_filter_le _ _
    _ = s.value.length := List.length_map _ _

theorem getScaleNotes_mem_lt {root x : ℤ} {s : ScaleType} :
    ∀ {n : ℕ}, x ∈ getScaleNotes root s n → x < root + (n : ℤ) * 12
  | 0, hx => by simp [getScaleNotes] at hx
  | n + 1, hx => by
      rw [getScaleNotes, List.mem_append] at hx
      rcases hx with hx | hx
      · have := getScaleNotes_mem_lt hx
        push_cast
        omega
      · have := (mem_scaleChunk hx).2.1
        push_cast
        omega

theorem getScaleNotes_sorted (root : ℤ) (s : ScaleType) (n : ℕ) :
    List.Sorted (· < ·) (getScaleNotes root s n) := by
  induction n with
  | zero => simp [getScaleNotes]
  | succ n ih =>
      rw [getScaleNotes]
      refine List.pairwise_append.mpr ⟨ih, scaleChunk_sorted root s n, ?_⟩
      intro a ha b hb
      have h1 := getScaleNotes_mem_lt ha
      have h2 := (mem_scaleChunk hb).1
      omega

theorem getScaleNotes_sorted_le (root : ℤ) (s : ScaleType) (n : ℕ) :
    List.Sorted (· ≤ ·) (getScaleNotes root s n) :=
  (getScaleNotes_sorted root s n).imp (fun hab => le_of_lt hab)

theorem getScaleNotes_length_le (root : ℤ) (s : ScaleType) (n : ℕ) :
    (getScaleNotes root s n).length ≤ n * s.value.length := by
  induction n with
  | zero => simp [getScaleNotes]
  | succ n ih =>
      rw [getScaleNotes, List.length_append]
      have := scaleChunk_length_le root s n
      calc (getScaleNotes root s n).length + (scaleChunk root s n).length
          ≤ n * s.value.length + s.value.length := Nat.add_le_add ih this
        _ = (n + 1) * s.value.length := by ring

theorem getScaleNotes_mem_range {root x : ℤ} {s : ScaleType} :
    ∀ {n : ℕ}, x ∈ getScaleNotes root s n → 0 ≤ x ∧ x ≤ 127
  | 0, hx => by simp [getScaleNotes] at hx
  | n + 1, hx => by
      rw [getScaleNotes, List.mem_append] at hx
      rcases hx with hx | hx
      · exact getScaleNotes_mem_range hx
      · exact (mem_scaleChunk hx).2.2

theorem root_mem_getScaleNotes {root : ℤ} (s : ScaleType)
    (h0 : 0 ≤ root) (h127 : root ≤ 127) : root ∈ getScaleNotes root s 3 := by
  have hc : root ∈ scaleChunk root s 0 := by
    unfold scaleChunk
    rw [List.mem_filter]
    constructor
    · rw [List.mem_map]
      exact ⟨0, scaleValue_zero_mem s, by push_cast; ring⟩
    · rw [decide_eq_true_eq]
      exact ⟨h0, h127⟩
  show root ∈ getScaleNotes root s 3
  rw [show (3 : ℕ) = 2 + 1 from rfl, getScaleNotes, List.mem_append]
  left
  rw [show (2 : ℕ) = 1 + 1 from rfl, getScaleNotes, List.mem_append]
  left
  rw [show (1 : ℕ) = 0 + 1 from rfl, getScaleNotes, List.mem_append]
  right
  exact hc

theorem sorted_map_add_filter {l : List ℤ} (h : List.Sorted (· ≤ ·) l)
    (root : ℤ) (p : ℤ → Bool) :
    List.Sorted (· ≤ ·) ((l.map (fun i => root + i)).filter p) := by
  apply List.Pairwise.filter
  exact List.Pairwise.map _ (fun a b hab => by omega) h

theorem sortList_sorted (l : List ℤ) : List.Sorted (· ≤ ·) (sortList l) :=
  List.sorted_insertionSort _ l

/-- Every chord quality's interval list is sorted ascending. -/
theorem qualityValue_sorted : ∀ q : ChordQuality, List.Sorted (· ≤ ·) q.value := by decide

/-- Every chord quality's interval list starts with 0. -/
theorem qualityValue_head : ∀ q : ChordQuality, q.value.head? = some (0 : ℤ) := by decide

/-- Every chord quality has at most four tones. -/
theorem qualityValue_length_le : ∀ q : ChordQuality, q.value.length ≤ 4 := by decide

theorem invertIter_sorted (q : ChordQuality) (k : ℕ) :
    List.Sorted (· ≤ ·) (invertIter q.value k) := by
  cases k with
  | zero => exact qualityValue_sorted q
  | succ n =>
      show List.Sorted _ (invertStep (invertIter q.value n))
      cases h : invertIter q.value n with
      | nil => simp [invertStep]
      | cons x xs => simpa [invertStep] using sortList_sorted ((x + 12) :: xs)

/-- For at most `len` inversions of any quality other than `ADD9` (whose
offset 14 exceeds the root's octave), the lowest `k` original tones each
appear raised by exactly 12 in the inverted interval list. -/
theorem invertIter_mem_of_lt :
    ∀ q : ChordQuality, q ≠ ChordQuality.ADD9 → ∀ k < 5, k ≤ q.value.length →
      ∀ i < k, (q.value.getD i 0 + 12) ∈ invertIter q.value k := by decide

theorem chordRootFor_pos (root : ℤ) (st : ScaleType) (d : ℤ) (hd : 0 < d) :
    ∃ r, chordRootFor root st d = some r := by
  unfold chordRootFor
  by_cases h : d ≤ ((getScaleNotes root st 3).length : ℤ)
  · rw [if_pos h]
    unfold pyGet
    rw [if_pos (by omega)]
    have hlt : (d - 1).toNat < (getScaleNotes root st 3).length := by omega
    exact ⟨_, List.get?_eq_get hlt⟩
  · rw [if_neg h]
    exact ⟨root, rfl⟩

theorem chordPitchesFor_pos (root : ℤ) (st : ScaleType) (d : ℤ) (hd : 0 < d) :
    ∃ c, chordPitchesFor root st d = Except.ok c := by
  obtain ⟨r, hr⟩ := chordRootFor_pos root st d hd
  refine ⟨createChord r (harmonizeDegree d st) 0 false, ?_⟩
  unfold chordPitchesFor
  rw [hr]

theorem sorted_le_getLast :
    ∀ {l : List ℤ}, List.Sorted (· ≤ ·) l →
      ∀ x ∈ l, ∀ y, l.getLast? = some y → x ≤ y := by
  intro l
  induction l with
  | nil => intro _ x hx; simp at hx
  | cons a t ih =>
      intro hs x hx y hy
      obtain ⟨hrel, ht⟩ := List.sorted_cons.mp hs
      cases t with
      | nil =>
          simp at hx hy
          omega
      | cons b t2 =>
          rw [List.getLast?_cons_cons] at hy
          rcases List.mem_cons.mp hx with rfl | hx2
          · have hb : b ≤ y := ih ht b (List.mem_cons_self b t2) y hy
            have : x ≤ b := hrel b (List.mem_cons_self b t2)
            omega
          · exact ih ht x hx2 y hy

/-! ## Claim theorems -/

/-- C1: for every scale degree, the harmonization rule embedded in
`create_chord_progression` follows the diatonic rule exactly: in a major
scale, degrees 1/4/5 give a major triad, 2/3/6 a minor triad, 7 a
diminished triad, and any other degree the major default; in any non-major
scale, degrees 3/6/7 give major, 1/4/5 minor, 2 diminished, and any other
degree the minor default. -/
theorem claim_C1_harmonization (degree : ℤ) (st : ScaleType) :
    (st = ScaleType.MAJOR →
      ((degree = 1 ∨ degree = 4 ∨ degree = 5) →
        harmonizeDegree degree st = ChordQuality.MAJOR) ∧
      ((degree = 2 ∨ degree = 3 ∨ degree = 6) →
        harmonizeDegree degree st = ChordQuality.MINOR) ∧
      (degree = 7 → harmonizeDegree degree st = ChordQuality.DIMINISHED) ∧
      (¬(degree = 1 ∨ degree = 2 ∨ degree = 3 ∨ degree = 4 ∨ degree = 5 ∨
          degree = 6 ∨ degree = 7) →
        harmonizeDegree degree st = ChordQuality.MAJOR)) ∧
    (st ≠ ScaleType.MAJOR →
      ((degree = 3 ∨ degree = 6 ∨ degree = 7) →
        harmonizeDegree degree st = ChordQuality.MAJOR) ∧
      ((degree = 1 ∨ degree = 4 ∨ degree = 5) →
        harmonizeDegree degree st = ChordQuality.MINOR) ∧
      (degree = 2 → harmonizeDegree degree st = ChordQuality.DIMINISHED) ∧
      (¬(degree = 1 ∨ degree = 2 ∨ degree = 3 ∨ degree = 4 ∨ degree = 5 ∨
          degree = 6 ∨ degree = 7) →
        harmonizeDegree degree st = ChordQuality.MINOR)) := by
  constructor
  · rintro rfl
    refine ⟨?_, ?_, ?_, ?_⟩
    · rintro (rfl | rfl | rfl) <;> decide
    · rintro (rfl | rfl | rfl) <;> decide
    · rintro rfl; decide
    · intro h
      unfold harmonizeDegree
      rw [if_pos rfl, if_neg (by omega), if_neg (by omega), if_neg (by omega)]
  · intro hst
    refine ⟨?_, ?_, ?_, ?_⟩
    · rintro (rfl | rfl | rfl) <;>
        (unfold harmonizeDegree; rw [if_neg hst, if_pos (by omega)])
    · rintro (rfl | rfl | rfl) <;>
        (unfold harmonizeDegree; rw [if_neg hst, if_neg (by omega), if_pos (by omega)])
    · rintro rfl
      unfold harmonizeDegree
      rw [if_neg hst, if_neg (by omega), if_neg (by omega), if_pos rfl]
    · intro h
      unfold harmonizeDegree
      rw [if_neg hst, if_neg (by omega), if_neg (by omega), if_neg (by omega)]

/-- Witness for C1 at a concrete input: degree 7 of a major scale is a
diminished triad. -/
theorem claim_C1_harmonization_witness :
    harmonizeDegree 7 ScaleType.MAJOR = ChordQuality.DIMINISHED :=
  ((claim_C1_harmonization 7 ScaleType.MAJOR).1 rfl).2.2.1 rfl

/-- C2 counterexample: at root 60 (major scale, default chord duration 4),
the 2nd generated chord of progression [1,4,5,1] has pitches {65,69,72}
(degree 4) while the 4th has {60,64,67} (degree 1) — they are not identical
pitch sets, falsifying the claim as stated. -/
theorem claim_C2_counterexample :
    (chordProgLoop 60 ScaleType.MAJOR 4 [1, 4, 5, 1] 0).map
        (fun notes => (((notes.drop 3).take 3).map Note.pitch,
          ((notes.drop 9).take 3).map Note.pitch)) =
      Except.ok ([65, 69, 72], [60, 64, 67]) ∧
    (65 : ℤ) ∈ ([65, 69, 72] : List ℤ) ∧ (65 : ℤ) ∉ ([60, 64, 67] : List ℤ) := by
  decide

/-- C2 (amended): for progression [1,4,5,1] in a major scale with any root
and chord duration, the 1st and 4th generated chords are identical pitch
sets (both are built from the same pitch list `c1`, because degree 1
recurs). -/
theorem claim_C2_identical_chords (root : ℤ) (d : ℚ) :
    ∃ c1 c4 c5 : List ℤ,
      chordPitchesFor root ScaleType.MAJOR 1 = Except.ok c1 ∧
      chordPitchesFor root ScaleType.MAJOR 4 = Except.ok c4 ∧
      chordPitchesFor root ScaleType.MAJOR 5 = Except.ok c5 ∧
      chordProgLoop root ScaleType.MAJOR d [1, 4, 5, 1] 0 = Except.ok
        (c1.map (fun p => mkNote p 0 d 70) ++
          (c4.map (fun p => mkNote p (0 + d) d 70) ++
            (c5.map (fun p => mkNote p (0 + d + d) d 70) ++
              c1.map (fun p => mkNote p (0 + d + d + d) d 70)))) := by
  obtain ⟨c1, h1⟩ := chordPitchesFor_pos root ScaleType.MAJOR 1 (by omega)
  obtain ⟨c4, h4⟩ := chordPitchesFor_pos root ScaleType.MAJOR 4 (by omega)
  obtain ⟨c5, h5⟩ := chordPitchesFor_pos root ScaleType.MAJOR 5 (by omega)
  refine ⟨c1, c4, c5, h1, h4, h5, ?_⟩
  simp [chordProgLoop, h1, h4, h5]

/-- C3 counterexample: for inversion k = 4 the claim fails.  With a major
triad (3 tones) at root 60, the chord is [76,79,84] and the transposition
root+0+12 = 72 of the lowest original tone does not appear (it was raised
by two octaves); with ADD9 even k = 4 = number of tones fails, because
ADD9's offset 14 exceeds the root's octave: the chord is [74,76,79,84] and
72 is again absent. -/
theorem claim_C3_counterexample :
    createChord 60 ChordQuality.MAJOR 4 false = [76, 79, 84] ∧
    60 + (ChordQuality.MAJOR.value.getD 0 0 + 12) ∉
      createChord 60 ChordQuality.MAJOR 4 false ∧
    createChord 60 ChordQuality.ADD9 4 false = [74, 76, 79, 84] ∧
    60 + (ChordQuality.ADD9.value.getD 0 0 + 12) ∉
      createChord 60 ChordQuality.ADD9 4 false := by
  decide

/-- C3 (amended): `create_chord` with inversion 0 places the root pitch
first (for any in-range root and any doubling flag); the output is always
sorted ascending; and for 0 < k ≤ number of chord tones and any quality
except ADD9 (whose 14-semitone offset exceeds one octave above the root),
each of the k lowest original tones appears transposed up exactly one
octave whenever the transposed pitch is in MIDI range. -/
theorem claim_C3_inversion :
    (∀ (root : ℤ) (q : ChordQuality) (dbl : Bool), 0 ≤ root → root ≤ 127 →
      (createChord root q 0 dbl).head? = some root) ∧
    (∀ (root : ℤ) (q : ChordQuality) (k : ℕ),
      List.Sorted (· ≤ ·) (createChord root q k false)) ∧
    (∀ (root : ℤ) (q : ChordQuality) (k : ℕ), q ≠ ChordQuality.ADD9 →
      0 < k → k ≤ q.value.length → ∀ i < k,
      0 ≤ root + (q.value.getD i 0 + 12) → root + (q.value.getD i 0 + 12) ≤ 127 →
      root + (q.value.getD i 0 + 12) ∈ createChord root q k false) := by
  refine ⟨?_, ?_, ?_⟩
  · intro root q dbl h0 h127
    have hh := qualityValue_head q
    cases hq : q.value with
    | nil => rw [hq] at hh; simp at hh
    | cons a tail =>
        rw [hq] at hh
        simp at hh
        subst hh
        unfold createChord invertIter
        rw [hq]
        cases dbl <;> simp [List.filter_cons, h0, h127]
  · intro root q k
    exact sorted_map_add_filter (invertIter_sorted q k) root _
  · intro root q k hq hk hklen i hi hlo hhi
    have h4 := qualityValue_length_le q
    have hk5 : k < 5 := by omega
    have hmem := invertIter_mem_of_lt q hq k hk5 hklen i hi
    show root + (q.value.getD i 0 + 12) ∈
      ((invertIter q.value k).map (fun interval => root + interval)).filter
        (fun note => decide (0 ≤ note ∧ note ≤ 127))
    apply List.mem_filter.mpr
    refine ⟨List.mem_map.mpr ⟨_, hmem, rfl⟩, ?_⟩
    rw [decide_eq_true_eq]
    exact ⟨hlo, hhi⟩

/-- Witness for C3 (amended) at concrete inputs: a minor triad at root 60
with inversion 1 — the root leads the uninverted chord, the inverted chord
is sorted, and the lowest tone reappears one octave up (at 72). -/
theorem claim_C3_inversion_witness :
    (createChord 60 ChordQuality.MINOR 0 false).head? = some 60 ∧
    List.Sorted (· ≤ ·) (createChord 60 ChordQuality.MINOR 1 false) ∧
    60 + (ChordQuality.MINOR.value.getD 0 0 + 12) ∈
      createChord 60 ChordQuality.MINOR 1 false :=
  ⟨claim_C3_inversion.1 60 ChordQuality.MINOR false (by decide) (by decide),
   claim_C3_inversion.2.1 60 ChordQuality.MINOR 1,
   claim_C3_inversion.2.2 60 ChordQuality.MINOR 1 (by decide) (by decide)
     (by decide) 0 (by decide) (by decide) (by decide)⟩

/-- C4: for every scale definition, root pitch in [0,127] and octave span,
`get_scale_notes` returns a non-decreasing sequence of length at most
`span * len(scale_offsets)` whose every element is in [0,127]. -/
theorem claim_C4_expand_scale (s : ScaleType) (root : ℤ) (span : ℕ)
    (h0 : 0 ≤ root) (h127 : root ≤ 127) :
    List.Sorted (· ≤ ·) (getScaleNotes root s span) ∧
      (getScaleNotes root s span).length ≤ span * s.value.length ∧
      ∀ x ∈ getScaleNotes root s span, 0 ≤ x ∧ x ≤ 127 :=
  ⟨getScaleNotes_sorted_le root s span, getScaleNotes_length_le root s span,
    fun _ hx => getScaleNotes_mem_range hx⟩

/-- Witness for C4 at a concrete input (root 60, major scale, span 2). -/
theorem claim_C4_expand_scale_witness :
    List.Sorted (· ≤ ·) (getScaleNotes 60 ScaleType.MAJOR 2) ∧
      (getScaleNotes 60 ScaleType.MAJOR 2).length ≤ 2 * ScaleType.MAJOR.value.length ∧
      ∀ x ∈ getScaleNotes 60 ScaleType.MAJOR 2, 0 ≤ x ∧ x ≤ 127 :=
  claim_C4_expand_scale ScaleType.MAJOR 60 2 (by decide) (by decide)

/-- C5: `Note` construction saturates pitch and velocity into [0,127]
instead of rejecting them: in-range values are unchanged, pitch 200 becomes
127, pitch -5 becomes 0, velocity is clamped the same way, and every
constructed note is in range. -/
theorem claim_C5_note_clamping :
    (∀ (p v : ℤ) (s d : ℚ), 0 ≤ p → p ≤ 127 → (mkNote p s d v).pitch = p) ∧
    (∀ (p v : ℤ) (s d : ℚ), 0 ≤ v → v ≤ 127 → (mkNote p s d v).velocity = v) ∧
    (∀ s d : ℚ, (mkNote 200 s d 80).pitch = 127) ∧
    (∀ s d : ℚ, (mkNote (-5) s d 80).pitch = 0) ∧
    (∀ s d : ℚ, (mkNote 60 s d 200).velocity = 127) ∧
    (∀ s d : ℚ, (mkNote 60 s d (-5)).velocity = 0) ∧
    (∀ (p v : ℤ) (s d : ℚ),
      0 ≤ (mkNote p s d v).pitch ∧ (mkNote p s d v).pitch ≤ 127 ∧
        0 ≤ (mkNote p s d v).velocity ∧ (mkNote p s d v).velocity ≤ 127) := by
  refine ⟨?_, ?_, ?_, ?_, ?_, ?_, ?_⟩ <;> intros <;> simp [mkNote] <;> omega

/-- Witness for C5 at a concrete input: an in-range pitch is unchanged. -/
theorem claim_C5_note_clamping_witness : (mkNote 100 0 1 80).pitch = 100 :=
  claim_C5_note_clamping.1 100 80 0 1 (by decide) (by decide)

/-- C6: for every in-range root and every scale, the melody builder on
pattern [(1,1,0),(0,1,0),(2,0.5,0.5)] emits exactly 2 note events (the
degree-0 element emits nothing but still advances the cursor) and ends with
the time cursor at 3.0 beats. -/
theorem claim_C6_melody_pattern (root : ℤ) (st : ScaleType)
    (h0 : 0 ≤ root) (h127 : root ≤ 127) :
    ∃ ns : List Note,
      melodyLoop (getScaleNotes root st 3) [(1, 1, 0), (0, 1, 0), (2, 1/2, 1/2)] 0 =
        Except.ok (ns, 3) ∧
      ns.length = 2 ∧
      createMelody root st [(1, 1, 0), (0, 1, 0), (2, 1/2, 1/2)] 5 =
        Except.ok { name := "Melody", channel := 1, notes := ns, program := 81 } := by
  have hmem := root_mem_getScaleNotes st h0 h127
  have hlen : ¬ (getScaleNotes root st 3).length = 0 := by
    intro h
    rw [List.length_eq_zero] at h
    rw [h] at hmem
    simp at hmem
  obtain ⟨ns, hloop, hcount⟩ :
      ∃ ns, melodyLoop (getScaleNotes root st 3) [(1,1,0),(0,1,0),(2,1/2,1/2)] 0 =
        Except.ok (ns, 3) ∧ ns.length = 2 := by
    simp [melodyLoop, hlen]
    norm_num
  refine ⟨ns, hloop, hcount, ?_⟩
  unfold createMelody
  rw [hloop]

/-- Witness for C6 at a concrete input (root 60, major scale). -/
theorem claim_C6_melody_pattern_witness :
    ∃ ns : List Note,
      melodyLoop (getScaleNotes 60 ScaleType.MAJOR 3)
          [(1, 1, 0), (0, 1, 0), (2, 1/2, 1/2)] 0 = Except.ok (ns, 3) ∧
      ns.length = 2 ∧
      createMelody 60 ScaleType.MAJOR [(1, 1, 0), (0, 1, 0), (2, 1/2, 1/2)] 5 =
        Except.ok { name := "Melody", channel := 1, notes := ns, program := 81 } :=
  claim_C6_melody_pattern 60 ScaleType.MAJOR (by decide) (by decide)

/-- C7 counterexample: a specification whose key is also invalid fails with
`InvalidNoteName`, not `UnknownScale`, even though its scale name does not
resolve — so the claim as universally stated is false. -/
theorem claim_C7_counterexample :
    scaleOfName "WEIRD" = none ∧
    createFromJson { tempo := 120, timeSignature := (4, 4), key := "X", octave := 4,
                     scale := "WEIRD",
                     tracks := [TrackSpec.melody [(1, 1, 0)] 5 none] } =
      Except.error PyError.invalidNoteName ∧
    createFromJson { tempo := 120, timeSignature := (4, 4), key := "X", octave := 4,
                     scale := "WEIRD",
                     tracks := [TrackSpec.melody [(1, 1, 0)] 5 none] } ≠
      Except.error PyError.unknownScale := by
  refine ⟨by decide, by decide, by decide⟩

/-- C7 (amended): for every specification whose key resolves to a valid
note name and whose scale field does not resolve to a known scale name,
the loader fails with `UnknownScale` before any track is built — the result
is the bare error, carrying no partial composition. -/
theorem claim_C7_unknown_scale (spec : CompSpec)
    (hkey : ∃ r, noteNameToMidi spec.key spec.octave = Except.ok r)
    (hscale : scaleOfName spec.scale = none) :
    createFromJson spec = Except.error PyError.unknownScale := by
  obtain ⟨r, hr⟩ := hkey
  simp [createFromJson, hr, hscale]

/-- Witness for C7 (amended) at a concrete specification. -/
theorem claim_C7_unknown_scale_witness :
    createFromJson { tempo := 120, timeSignature := (4, 4), key := "C", octave := 4,
                     scale := "WEIRD",
                     tracks := [TrackSpec.melody [(1, 1, 0)] 5 none] } =
      Except.error PyError.unknownScale :=
  claim_C7_unknown_scale _ ⟨60, by decide⟩ (by decide)

/-- C8: in the chord-progression builder, the fallback to the unmodified
root applies only when the degree exceeds the expanded scale's length; a
degree d with -len < d ≤ 0 selects the element at position len + d - 1
(Python negative indexing), and in particular degree 0 selects the last —
and, the expansion being sorted, highest — element. -/
theorem claim_C8_negative_degree :
    (∀ (root : ℤ) (st : ScaleType) (d : ℤ),
      ((getScaleNotes root st 3).length : ℤ) < d → chordRootFor root st d = some root) ∧
    (∀ (root : ℤ) (st : ScaleType) (d : ℤ),
      -((getScaleNotes root st 3).length : ℤ) < d → d ≤ 0 →
      chordRootFor root st d =
        (getScaleNotes root st 3).get?
          (((getScaleNotes root st 3).length : ℤ) + d - 1).toNat ∧
      (d = 0 →
        chordRootFor root st d = (getScaleNotes root st 3).getLast? ∧
        ∀ x ∈ getScaleNotes root st 3, ∀ y,
          (getScaleNotes root st 3).getLast? = some y → x ≤ y)) := by
  constructor
  · intro root st d hd
    unfold chordRootFor
    rw [if_neg (by omega)]
  · intro root st d hlow hup
    have hmain : chordRootFor root st d =
        (getScaleNotes root st 3).get?
          (((getScaleNotes root st 3).length : ℤ) + d - 1).toNat := by
      unfold chordRootFor
      rw [if_pos (by omega)]
      unfold pyGet
      rw [if_neg (by omega), if_pos (by omega)]
      congr 1
      omega
    refine ⟨hmain, ?_⟩
    rintro rfl
    have hgl : (getScaleNotes root st 3).getLast? =
        (getScaleNotes root st 3).get? ((getScaleNotes root st 3).length - 1) := by
      rw [List.getLast?_eq_getElem?, List.get?_eq_getElem?]
    constructor
    · rw [hmain, hgl]
      congr 1
      omega
    · intro x hx y hy
      exact sorted_le_getLast (getScaleNotes_sorted_le root st 3) x hx y hy

/-- Witness for C8 at a concrete input: degree 0 at root 60 (major scale)
resolves to the last element of the 3-octave expansion. -/
theorem claim_C8_negative_degree_witness :
    chordRootFor 60 ScaleType.MAJOR 0 =
      (getScaleNotes 60 ScaleType.MAJOR 3).get?
        (((getScaleNotes 60 ScaleType.MAJOR 3).length : ℤ) + 0 - 1).toNat ∧
    chordRootFor 60 ScaleType.MAJOR 0 = (getScaleNotes 60 ScaleType.MAJOR 3).getLast? :=
  ⟨(claim_C8_negative_degree.2 60 ScaleType.MAJOR 0 (by decide) (by decide)).1,
   ((claim_C8_negative_degree.2 60 ScaleType.MAJOR 0 (by decide) (by decide)).2 rfl).1⟩

/-- C9: the melody builder's output is independent of its `start_octave`
parameter — any two values produce identical results. -/
theorem claim_C9_start_octave_unused (root : ℤ) (st : ScaleType)
    (pattern : List (ℤ × ℚ × ℚ)) (a b : ℤ) :
    createMelody root st pattern a = createMelody root st pattern b := rfl

/-- C10: `note_name_to_midi` removes every lowercase 'm' from the note name
before lookup, so any name resolves identically to its 'm'-free form; in
particular, for every octave, "Am" resolves like "A", "Cm" like "C", "Em"
like "E", and "Cm" succeeds rather than failing. -/
theorem claim_C10_m_removal :
    (∀ (name : String) (octave : ℤ),
      noteNameToMidi name octave =
        noteNameToMidi (String.mk (name.toList.filter (fun c => c != 'm'))) octave) ∧
    (∀ octave : ℤ,
      noteNameToMidi "Am" octave = noteNameToMidi "A" octave ∧
      noteNameToMidi "Cm" octave = noteNameToMidi "C" octave ∧
      noteNameToMidi "Em" octave = noteNameToMidi "E" octave ∧
      ∃ v, noteNameToMidi "Cm" octave = Except.ok v) := by
  constructor
  · intro name octave
    have hkey : processNoteName (String.mk (name.toList.filter (fun c => c != 'm'))) =
        processNoteName name := by
      unfold processNoteName
      have h1 : (String.mk (name.toList.filter (fun c => c != 'm'))).toList =
          name.toList.filter (fun c => c != 'm') := rfl
      rw [h1, List.filter_filter]
      simp
    unfold noteNameToMidi
    rw [hkey]
  · intro octave
    exact ⟨rfl, rfl, rfl, ⟨_, rfl⟩⟩
